import Mathlib

/-
Verification of the smart-budgeting transaction/aggregation core.

Shallow embedding of:
  - models.py      : Transaction, Account, Budget, InvalidTransactionError
  - utils.py       : parse_csv_line
  - services/transaction_service.py : TransactionService

Modelling conventions:
  - Python floats are modelled as exact rationals (the claims are about
    which transactions are selected and how sums are formed, not about
    floating-point rounding).
  - Python exceptions are modelled as Except String results; where the
    source mutates in place before raising (Account.update_transaction),
    the operation returns the post-mutation state together with the error.
  - Python dicts are modelled as association lists with dict semantics:
    updating an existing key keeps its position, a new key is appended.
  - datetime.date values are modelled as (year, month, day) triples
    ordered lexicographically, which is exactly Python date ordering.
  - Functions with a today-based default (year=None/month=None) take the
    year/month explicitly; the default merely substitutes the current date.
  - str.strip / str.splitlines / the whitespace class of the regex are
    modelled over the ASCII whitespace characters, which covers every
    input exercised by the repository.
-/

namespace SmartBudget

/-- Calendar date as stored by datetime.date: year, month, day. -/
structure Date where
  year : Nat
  month : Nat
  day : Nat
deriving DecidableEq, Repr

/-- Python date ordering: lexicographic on (year, month, day). -/
def Date.le (a b : Date) : Bool :=
  decide (a.year < b.year) ||
    (decide (a.year = b.year) &&
      (decide (a.month < b.month) ||
        (decide (a.month = b.month) && decide (a.day ≤ b.day))))

/-- Gregorian leap-year rule used by datetime. -/
def isLeapYear (y : Nat) : Bool :=
  y % 4 = 0 && (y % 100 ≠ 0 || y % 400 = 0)

/-- Number of days in a month, as datetime validates them. -/
def daysInMonth (y m : Nat) : Nat :=
  if m = 2 then (if isLeapYear y then 29 else 28)
  else if m = 4 ∨ m = 6 ∨ m = 9 ∨ m = 11 then 30
  else 31

/-- zero-padding helper for isoformat. -/
def padNum (width n : Nat) : String :=
  let s := toString n
  String.mk (List.replicate (width - s.length) '0') ++ s

/-- datetime.date.isoformat: YYYY-MM-DD with zero padding. -/
def Date.isoformat (d : Date) : String :=
  padNum 4 d.year ++ "-" ++ padNum 2 d.month ++ "-" ++ padNum 2 d.day

/-- A Python runtime value as it may be passed to the validated setters:
a date object, a number (int/float), or a string.  Used to express the
isinstance checks of models.py. -/
inductive PyVal where
  | vdate (d : Date)
  | vnum (q : ℚ)
  | vstr (s : String)
deriving DecidableEq, Repr

/-- models.py Transaction: date, amount, category, description, id
(None until assigned by Account). -/
structure Transaction where
  date : Date
  amount : ℚ
  category : String
  description : String
  id : Option Nat
deriving DecidableEq, Repr

/-- Transaction.__init__ with its isinstance validation, in source order:
date must be a datetime.date, amount must be a number, category must be a
non-empty string.  On failure no object is produced. -/
def mkTransaction (date amount category : PyVal) (description : String) :
    Except String Transaction :=
  match date with
  | .vdate d =>
    match amount with
    | .vnum q =>
      match category with
      | .vstr s =>
        if s = "" then .error "category must be a non-empty string"
        else .ok ⟨d, q, s, description, none⟩
      | _ => .error "category must be a non-empty string"
    | _ => .error "amount must be a number"
  | _ => .error "date must be a datetime.date instance"

/-- Values appearing in the serialized dict view of a Transaction. -/
inductive DictVal where
  | str (s : String)
  | num (q : ℚ)
deriving DecidableEq, Repr

/-- Transaction.to_dict: date as ISO string, amount, category,
description; the id is not included. -/
def Transaction.to_dict (t : Transaction) : List (String × DictVal) :=
  [("date", .str t.date.isoformat),
   ("amount", .num t.amount),
   ("category", .str t.category),
   ("description", .str t.description)]

/-- models.py Account: ordered transaction list plus the next_id counter. -/
structure Account where
  transactions : List Transaction
  next_id : Nat
deriving DecidableEq, Repr

/-- Account.__init__. -/
def Account.init : Account := ⟨[], 1⟩

/-- Account.add_transaction: assign next_id to the transaction, increment
the counter, append. -/
def Account.add_transaction (acc : Account) (t : Transaction) : Account :=
  { transactions := acc.transactions ++ [{ t with id := some acc.next_id }],
    next_id := acc.next_id + 1 }

/-- Account.list_transactions.  Each filter is guarded by Python
truthiness: a date argument is truthy whenever present, but an empty
string category is falsy, so it applies no category filter. -/
def Account.list_transactions (acc : Account)
    (start_date end_date : Option Date) (category : Option String) :
    List Transaction :=
  let r := acc.transactions
  let r := match start_date with
    | none => r
    | some s => r.filter (fun t => Date.le s t.date)
  let r := match end_date with
    | none => r
    | some e => r.filter (fun t => Date.le t.date e)
  match category with
  | none => r
  | some c => if c = "" then r else r.filter (fun t => decide (t.category = c))

/-- Account.get_balance. -/
def Account.get_balance (acc : Account) : ℚ :=
  (acc.transactions.map Transaction.amount).sum

/-- Account.get_transaction_by_id: first transaction whose id matches. -/
def Account.get_transaction_by_id (acc : Account) (i : Nat) :
    Option Transaction :=
  acc.transactions.find? (fun t => decide (t.id = some i))

/-- Sequencing of the field updates of Account.update_transaction: once
a validation has raised, later fields are not touched, but the
assignments already made stay in place. -/
def updChain (r : Transaction × Option String)
    (f : Transaction → Transaction × Option String) :
    Transaction × Option String :=
  match r.2 with
  | some _ => r
  | none => f r.1

/-- The date field of update_transaction: validate, then assign. -/
def updDate (date : Option PyVal) (t : Transaction) :
    Transaction × Option String :=
  match date with
  | none => (t, none)
  | some (.vdate d) => ({ t with date := d }, none)
  | some _ => (t, some "date must be a datetime.date instance")

/-- The amount field of update_transaction. -/
def updAmount (amount : Option PyVal) (t : Transaction) :
    Transaction × Option String :=
  match amount with
  | none => (t, none)
  | some (.vnum q) => ({ t with amount := q }, none)
  | some _ => (t, some "amount must be a number")

/-- The category field of update_transaction. -/
def updCategory (category : Option PyVal) (t : Transaction) :
    Transaction × Option String :=
  match category with
  | none => (t, none)
  | some (.vstr s) =>
    if s = "" then (t, some "category must be a non-empty string")
    else ({ t with category := s }, none)
  | some _ => (t, some "category must be a non-empty string")

/-- The description field of update_transaction: no validation. -/
def updDescription (description : Option String) (t : Transaction) :
    Transaction × Option String :=
  match description with
  | none => (t, none)
  | some s => ({ t with description := s }, none)

/-- Field-by-field body of Account.update_transaction: each provided
field is validated and then immediately assigned, in the source order
date, amount, category, description.  The returned transaction carries
every assignment made before the first validation failure. -/
def applyFieldUpdates (t : Transaction)
    (date amount category : Option PyVal) (description : Option String) :
    Transaction × Option String :=
  updChain (updChain (updChain (updDate date t) (updAmount amount))
    (updCategory category)) (updDescription description)

/-- Replace the first transaction with the given id (in-place mutation of
the object found by get_transaction_by_id). -/
def replaceById (ts : List Transaction) (i : Nat) (t' : Transaction) :
    List Transaction :=
  match ts with
  | [] => []
  | t :: rest =>
    if t.id = some i then t' :: rest else t :: replaceById rest i t'

/-- Account.update_transaction.  Raises when the id is unknown; otherwise
mutates the found transaction in place via applyFieldUpdates, so on a
validation failure the fields already assigned stay assigned. -/
def Account.update_transaction (acc : Account) (i : Nat)
    (date amount category : Option PyVal) (description : Option String) :
    Account × Option String :=
  match acc.get_transaction_by_id i with
  | none => (acc, some ("Transaction with id " ++ toString i ++ " not found"))
  | some t =>
    let r := applyFieldUpdates t date amount category description
    ({ acc with transactions := replaceById acc.transactions i r.1 }, r.2)

/-- Remove the first transaction with the given id. -/
def removeById (ts : List Transaction) (i : Nat) : List Transaction :=
  match ts with
  | [] => []
  | t :: rest => if t.id = some i then rest else t :: removeById rest i

/-- Account.delete_transaction: raises when the id is unknown, otherwise
removes exactly the transaction found by get_transaction_by_id. -/
def Account.delete_transaction (acc : Account) (i : Nat) :
    Account × Option String :=
  match acc.get_transaction_by_id i with
  | none => (acc, some ("Transaction with id " ++ toString i ++ " not found"))
  | some _ => ({ acc with transactions := removeById acc.transactions i }, none)

/-- Python-dict get with default, over an association list. -/
def dictGet (d : List (String × ℚ)) (k : String) (v₀ : ℚ) : ℚ :=
  match d.find? (fun p => decide (p.1 = k)) with
  | some p => p.2
  | none => v₀

/-- Python-dict lookup without a default. -/
def dictFind (d : List (String × ℚ)) (k : String) : Option ℚ :=
  (d.find? (fun p => decide (p.1 = k))).map Prod.snd

/-- Python-dict assignment: update the existing entry in place, or append
a fresh key at the end. -/
def dictSet : List (String × ℚ) → String → ℚ → List (String × ℚ)
  | [], k, v => [(k, v)]
  | p :: rest, k, v =>
    if p.1 = k then (k, v) :: rest else p :: dictSet rest k v

/-- models.py Budget: category to monthly amount. -/
structure Budget where
  monthly_budgets : List (String × ℚ)
deriving DecidableEq, Repr

/-- Budget.set_budget: rejects negative amounts without mutating. -/
def Budget.set_budget (b : Budget) (category : String) (amount : ℚ) :
    Except String Budget :=
  if amount < 0 then .error "Budget amount cannot be negative"
  else .ok ⟨dictSet b.monthly_budgets category amount⟩

/-- Budget.get_budget: stored amount, 0 when absent. -/
def Budget.get_budget (b : Budget) (category : String) : ℚ :=
  dictGet b.monthly_budgets category 0

/-! utils.py: parse_csv_line.  The source matches the line against the
regex

  \s*(?P<date>\d{4}-\d{2}-\d{2}|\d{1,2}/\d{1,2}/\d{4})\s*,\s*
  (?P<amount>-?\d+(?:\.\d+)?)\s*,\s*
  (?P<category>[^,]+)\s*(?:,\s*(?P<description>.*))?

with re.match, then converts the date with strptime.  The embedding below
is a deterministic parser equal to the regex: the two date alternatives
are mutually exclusive on their prefixes, and every greedy repetition is
followed by a character it can never give back usefully, so no
backtracking changes the outcome except the documented one-character
give-back of \s* before an all-whitespace category segment (which the
trailing .strip() erases anyway). -/

/-- ASCII whitespace as matched by Python \s and str.strip. -/
def isPySpace (c : Char) : Bool :=
  c = ' ' || c = '\t' || c = '\n' || c = '\r' || c = '\x0b' || c = '\x0c'

/-- str.strip(): remove leading and trailing whitespace. -/
def pythonStrip (s : String) : String :=
  String.mk (((s.data.dropWhile isPySpace).reverse.dropWhile isPySpace).reverse)

/-- str.splitlines worker: split on \n, \r and \r\n, no trailing empty
line for a trailing terminator. -/
def splitlinesAux (cs : List Char) (acc : List Char) : List String :=
  match cs with
  | [] => if acc.isEmpty then [] else [String.mk acc.reverse]
  | '\r' :: '\n' :: rest => String.mk acc.reverse :: splitlinesAux rest []
  | '\r' :: rest => String.mk acc.reverse :: splitlinesAux rest []
  | '\n' :: rest => String.mk acc.reverse :: splitlinesAux rest []
  | c :: rest => splitlinesAux rest (c :: acc)

/-- str.splitlines over the line terminators occurring in this system. -/
def splitlines (s : String) : List String :=
  splitlinesAux s.data []

/-- Numeric value of a decimal digit character. -/
def dval (c : Char) : Nat := c.toNat - 48

/-- Value of a digit sequence. -/
def digitsVal (ds : List Char) : Nat :=
  ds.foldl (fun n c => 10 * n + dval c) 0

/-- \s* : drop leading whitespace. -/
def skipSpaces (cs : List Char) : List Char := cs.dropWhile isPySpace

/-- The date alternative \d{4}-\d{2}-\d{2}: fixed-width, returns the
value, the consumed token and the rest. -/
def parseDashDate : List Char → Option ((Nat × Nat × Nat) × List Char × List Char)
  | a :: b :: c :: d :: '-' :: e :: f :: '-' :: g :: h :: rest =>
    if a.isDigit && b.isDigit && c.isDigit && d.isDigit &&
       e.isDigit && f.isDigit && g.isDigit && h.isDigit then
      some ((1000 * dval a + 100 * dval b + 10 * dval c + dval d,
             10 * dval e + dval f, 10 * dval g + dval h),
            [a, b, c, d, '-', e, f, '-', g, h], rest)
    else none
  | _ => none

/-- \d{1,2}/ with the regex's greedy preference: two digits before the
slash when possible, otherwise one. -/
def parseD12slash : List Char → Option (Nat × List Char × List Char)
  | a :: b :: rest =>
    if a.isDigit && b.isDigit then
      match rest with
      | '/' :: rest2 => some (10 * dval a + dval b, [a, b, '/'], rest2)
      | _ => none
    else if a.isDigit && b = '/' then some (dval a, [a, b], rest)
    else none
  | _ => none

/-- \d{4}: exactly four digits. -/
def parseYear4 : List Char → Option (Nat × List Char × List Char)
  | a :: b :: c :: d :: rest =>
    if a.isDigit && b.isDigit && c.isDigit && d.isDigit then
      some (1000 * dval a + 100 * dval b + 10 * dval c + dval d,
            [a, b, c, d], rest)
    else none
  | _ => none

/-- The date alternative \d{1,2}/\d{1,2}/\d{4}, value order (y, m, d). -/
def parseSlashDate (cs : List Char) :
    Option ((Nat × Nat × Nat) × List Char × List Char) :=
  match parseD12slash cs with
  | none => none
  | some (m, tokm, rest1) =>
    match parseD12slash rest1 with
    | none => none
    | some (d, tokd, rest2) =>
      match parseYear4 rest2 with
      | none => none
      | some (y, toky, rest3) => some ((y, m, d), tokm ++ tokd ++ toky, rest3)

/-- The full date alternation, dash form preferred like the regex. -/
def parseDate (cs : List Char) :
    Option ((Nat × Nat × Nat) × List Char × List Char) :=
  match parseDashDate cs with
  | some r => some r
  | none => parseSlashDate cs

/-- \s*, : whitespace then a mandatory comma. -/
def parseComma (cs : List Char) : Option (List Char) :=
  match skipSpaces cs with
  | ',' :: rest => some rest
  | _ => none

/-- -?\d+(?:\.\d+)? as a rational value. -/
def parseAmount (cs : List Char) : Option (ℚ × List Char) :=
  let np : Bool × List Char :=
    match cs with
    | '-' :: rest => (true, rest)
    | _ => (false, cs)
  let intDigits := np.2.takeWhile Char.isDigit
  let rest1 := np.2.dropWhile Char.isDigit
  if intDigits.isEmpty then none
  else
    let vr : ℚ × List Char :=
      match rest1 with
      | '.' :: rest2 =>
        let fracDigits := rest2.takeWhile Char.isDigit
        if fracDigits.isEmpty then ((digitsVal intDigits : ℚ), rest1)
        else ((digitsVal intDigits : ℚ) +
                (digitsVal fracDigits : ℚ) / ((10 : ℚ) ^ fracDigits.length),
              rest2.dropWhile Char.isDigit)
      | _ => ((digitsVal intDigits : ℚ), rest1)
    some (if np.1 then -vr.1 else vr.1, vr.2)

/-- \s*(?P<category>[^,]+)\s*(?:,\s*(?P<description>.*))? applied to the
text after the second comma, already combined with the trailing
category.strip() and the description defaulting of the source.  The
category segment runs to the next comma or the end of the line and must
be non-empty; the description, when the third comma is present, is the
remainder with leading whitespace absorbed by \s* and stopped at a
newline, which . does not match. -/
def parseCategoryDesc (rest : List Char) : Option (String × String) :=
  let seg := rest.takeWhile (fun c => c ≠ ',')
  let tail := rest.dropWhile (fun c => c ≠ ',')
  if seg.isEmpty then none
  else
    let ws := seg.takeWhile isPySpace
    let category := pythonStrip (String.mk (seg.drop ws.length))
    let description :=
      match tail with
      | ',' :: rest2 =>
        String.mk ((rest2.dropWhile isPySpace).takeWhile (fun c => c ≠ '\n'))
      | _ => ""
    some (category, description)

/-- The whole regex of parse_csv_line: shape match only, before any
strptime conversion. -/
def parseShape (line : String) :
    Option ((Nat × Nat × Nat) × ℚ × String × String) :=
  match parseDate (skipSpaces line.data) with
  | none => none
  | some (ymd, _tok, rest) =>
    match parseComma rest with
    | none => none
    | some rest1 =>
      match parseAmount (skipSpaces rest1) with
      | none => none
      | some (amt, rest2) =>
        match parseComma rest2 with
        | none => none
        | some rest3 =>
          (parseCategoryDesc rest3).map (fun cd => (ymd, amt, cd.1, cd.2))

/-- Calendar validity as enforced by strptime/datetime.date. -/
def validYMD (y m d : Nat) : Bool :=
  decide (1 ≤ y) && decide (1 ≤ m) && decide (m ≤ 12) &&
    decide (1 ≤ d) && decide (d ≤ daysInMonth y m)

/-- utils.parse_csv_line: regex match first (failure carries the line's
text), then strptime conversion of the matched date (failure carries a
strptime-style message; the exact Python wording is not load-bearing). -/
def parse_csv_line (line : String) :
    Except String (Date × ℚ × String × String) :=
  match parseShape line with
  | none => .error ("Line does not match expected format: " ++ line)
  | some (ymd, amt, cat, desc) =>
    if validYMD ymd.1 ymd.2.1 ymd.2.2 then
      .ok (⟨ymd.1, ymd.2.1, ymd.2.2⟩, amt, cat, desc)
    else .error "time data does not match date format"

/-! services/transaction_service.py -/

/-- TransactionService holds the account and an optional budget. -/
structure TransactionService where
  account : Account
  budget : Option Budget
deriving DecidableEq, Repr

/-- TransactionService.create_transaction: construct (validating) and add
to the account; returns the service state and the stored transaction,
whose id was assigned by the account. -/
def TransactionService.create_transaction (svc : TransactionService)
    (date amount category : PyVal) (description : String) :
    Except String (TransactionService × Transaction) :=
  match mkTransaction date amount category description with
  | .error e => .error e
  | .ok t =>
    .ok ({ svc with account := svc.account.add_transaction t },
         { t with id := some svc.account.next_id })

/-- First day of the requested month. -/
def monthStart (year month : Nat) : Date := ⟨year, month, 1⟩

/-- First day of the following month; December rolls over to January of
the next year. -/
def monthEnd (year month : Nat) : Date :=
  if month = 12 then ⟨year + 1, 1, 1⟩ else ⟨year, month + 1, 1⟩

/-- The transaction selection shared by all monthly aggregations:
list_transactions with start_date = first of the month and end_date =
first of the next month (which list_transactions treats inclusively). -/
def TransactionService.monthly_transactions (svc : TransactionService)
    (year month : Nat) : List Transaction :=
  svc.account.list_transactions (some (monthStart year month))
    (some (monthEnd year month)) none

/-- TransactionService.get_monthly_spending: sum of abs(amount) over the
selected transactions with negative amount. -/
def TransactionService.get_monthly_spending (svc : TransactionService)
    (year month : Nat) : ℚ :=
  (((svc.monthly_transactions year month).filter
      (fun t => decide (t.amount < 0))).map (fun t => |t.amount|)).sum

/-- TransactionService.get_monthly_income: sum of amount over the
selected transactions with positive amount. -/
def TransactionService.get_monthly_income (svc : TransactionService)
    (year month : Nat) : ℚ :=
  (((svc.monthly_transactions year month).filter
      (fun t => decide (t.amount > 0))).map Transaction.amount).sum

/-- TransactionService.get_category_totals: left fold over the selected
transactions, accumulating category_totals[t.category] =
category_totals.get(t.category, 0) + t.amount into a dict. -/
def TransactionService.get_category_totals (svc : TransactionService)
    (year month : Nat) : List (String × ℚ) :=
  (svc.monthly_transactions year month).foldl
    (fun d t => dictSet d t.category (dictGet d t.category 0 + t.amount)) []

/-- TransactionService.get_category_spending: keep the negative category
totals, as absolute values, in dict order. -/
def TransactionService.get_category_spending (svc : TransactionService)
    (year month : Nat) : List (String × ℚ) :=
  ((svc.get_category_totals year month).filter
      (fun p => decide (p.2 < 0))).map (fun p => (p.1, |p.2|))

/-- Result record of get_budget_status. -/
structure BudgetStatus where
  budget : ℚ
  spent : ℚ
  remaining : ℚ
deriving DecidableEq, Repr

/-- TransactionService.get_budget_status.  The source calls
get_category_totals() with no arguments, which defaults to the current
date's year and month; the current year/month appear here as explicit
parameters.  Returns none when no budget is attached. -/
def TransactionService.get_budget_status (svc : TransactionService)
    (year month : Nat) (category : String) : Option BudgetStatus :=
  match svc.budget with
  | none => none
  | some b =>
    let spent := |dictGet (svc.get_category_totals year month) category 0|
    let budget_amount := b.get_budget category
    some ⟨budget_amount, spent, budget_amount - spent⟩

/-- One iteration of the import loop: parse the line, then
create_transaction from the parsed fields. -/
def processLine (svc : TransactionService) (line : String) :
    Except String (TransactionService × Transaction) :=
  match parse_csv_line line with
  | .error e => .error e
  | .ok (d, a, c, ds) =>
    svc.create_transaction (.vdate d) (.vnum a) (.vstr c) ds

/-- The enumerate loop of import_transactions_from_csv: i is the 0-based
index of the current line; a failing line is recorded as
"Line i+1: message" and the loop continues on the unchanged service. -/
def importLoop (svc : TransactionService) (i : Nat) :
    List String → TransactionService × Nat × List String
  | [] => (svc, 0, [])
  | line :: rest =>
    match processLine svc line with
    | .ok sv =>
      let r := importLoop sv.1 (i + 1) rest
      (r.1, r.2.1 + 1, r.2.2)
    | .error e =>
      let r := importLoop svc (i + 1) rest
      (r.1, r.2.1, ("Line " ++ toString (i + 1) ++ ": " ++ e) :: r.2.2)

/-- TransactionService.import_transactions_from_csv: strip the content,
split into lines, run the loop; returns the service state, the imported
count and the ordered error list. -/
def TransactionService.import_transactions_from_csv
    (svc : TransactionService) (csv : String) :
    TransactionService × Nat × List String :=
  importLoop svc 0 (splitlines (pythonStrip csv))

/-! Specification-side definitions, written from the spec's wording, to
be compared with the embedded source functions, plus the operation
machinery used to state the Account invariants. -/

/-- Spec wording for getMonthlySpending: the sum, over the considered
transactions, of the absolute value of each strictly negative amount. -/
def specSpending (ts : List Transaction) : ℚ :=
  (ts.map (fun t => if t.amount < 0 then |t.amount| else 0)).sum

/-- Spec wording for getMonthlyIncome: the sum, over the considered
transactions, of each strictly positive amount. -/
def specIncome (ts : List Transaction) : ℚ :=
  (ts.map (fun t => if 0 < t.amount then t.amount else 0)).sum

/-- Signed net total of one category over a transaction list. -/
def categoryTotal (ts : List Transaction) (c : String) : ℚ :=
  ((ts.filter (fun t => decide (t.category = c))).map Transaction.amount).sum

/-- Spec wording for the key order of getCategoryTotals: categories in
order of first occurrence, each exactly once. -/
def firstOccur (cs : List String) : List String :=
  cs.foldl (fun acc c => if c ∈ acc then acc else acc ++ [c]) []

/-- Spec wording for the date shapes the line parser accepts: exactly
YYYY-MM-DD (two-digit month and day) with four digits before the first
dash. -/
def dashShape : List Char → Bool
  | [a, b, c, d, e, f, g, h, i, j] =>
    a.isDigit && b.isDigit && c.isDigit && d.isDigit && e = '-' &&
      f.isDigit && g.isDigit && h = '-' && i.isDigit && j.isDigit
  | _ => false

/-- Spec wording for the slash date shape: one or two digit month and
day, four-digit year, separated by slashes. -/
def slashShape : List Char → Bool
  | [a, b, c, y1, y2, y3, y4, y5] =>
    a.isDigit && b = '/' && c.isDigit && y1 = '/' &&
      y2.isDigit && y3.isDigit && y4.isDigit && y5.isDigit
  | [a, b, c, d, e, y1, y2, y3, y4] =>
    (y1.isDigit && y2.isDigit && y3.isDigit && y4.isDigit) &&
      ((a.isDigit && b.isDigit && c = '/' && d.isDigit && e = '/') ||
        (a.isDigit && b = '/' && c.isDigit && d.isDigit && e = '/'))
  | [a, b, c, d, e, f, y1, y2, y3, y4] =>
    a.isDigit && b.isDigit && c = '/' && d.isDigit && e.isDigit &&
      f = '/' && y1.isDigit && y2.isDigit && y3.isDigit && y4.isDigit
  | _ => false

/-- A date token has one of the two accepted literal shapes. -/
def dateShape (tok : List Char) : Bool :=
  dashShape tok || slashShape tok

/-- Per-line outcome of the import pipeline, independent of the account:
parse the line, then run the constructor validation on the parsed
fields. -/
def lineResult (line : String) : Except String Transaction :=
  match parse_csv_line line with
  | .error e => .error e
  | .ok (d, a, c, ds) => mkTransaction (.vdate d) (.vnum a) (.vstr c) ds

/-- Whether a line imports successfully. -/
def lineOk (line : String) : Bool :=
  match lineResult line with
  | .ok _ => true
  | .error _ => false

/-- The error list the import produces, starting at 0-based index i. -/
def lineErrors (i : Nat) : List String → List String
  | [] => []
  | line :: rest =>
    match lineResult line with
    | .ok _ => lineErrors (i + 1) rest
    | .error e =>
      ("Line " ++ toString (i + 1) ++ ": " ++ e) :: lineErrors (i + 1) rest

/-- The transactions the import appends, with the sequential ids they
receive starting from the given counter value. -/
def newTxns (nid : Nat) : List String → List Transaction
  | [] => []
  | line :: rest =>
    match lineResult line with
    | .ok t => { t with id := some nid } :: newTxns (nid + 1) rest
    | .error _ => newTxns nid rest

/-- The mutating Account operations, for stating reachable-state
invariants. -/
inductive AccountOp where
  | addT (t : Transaction)
  | deleteT (i : Nat)
  | updateT (i : Nat) (date amount category : Option PyVal)
      (description : Option String)

/-- State transition of one operation (a raising delete or update leaves
the account unchanged). -/
def applyOp (acc : Account) : AccountOp → Account
  | .addT t => acc.add_transaction t
  | .deleteT i => (acc.delete_transaction i).1
  | .updateT i d a c ds => (acc.update_transaction i d a c ds).1

/-- Run a sequence of operations from the initial account. -/
def runOps (ops : List AccountOp) : Account :=
  ops.foldl applyOp Account.init

/-- Whether an operation is an add. -/
def AccountOp.isAdd : AccountOp → Bool
  | .addT _ => true
  | _ => false

/-- Number of adds in an operation sequence. -/
def countAdds (ops : List AccountOp) : Nat :=
  (ops.filter AccountOp.isAdd).length

/-! Theorems. -/

/-- Claim C10: list_transactions applies each filter only when its value
is truthy; the empty string is falsy in Python, so a category filter of
"" applies no category restriction and the call behaves exactly as if
the filter were omitted. -/
theorem c10_empty_category_no_filter (acc : Account) (sd ed : Option Date) :
    acc.list_transactions sd ed (some "") =
      acc.list_transactions sd ed none := by
  simp [Account.list_transactions]

/-- Claim C1 (code bug): the spec's month window is half-open, but
get_monthly_spending passes the first day of the next month as an
inclusive end_date to list_transactions, so at this concrete input a
spending transaction dated exactly 2023-11-01 is counted by the October
2023 aggregation, where the claim requires 0. -/
theorem c1_next_month_first_day_counted :
    (TransactionService.mk
        (Account.init.add_transaction ⟨⟨2023, 11, 1⟩, -50, "Groceries", "", none⟩)
        none).get_monthly_spending 2023 10 = 50 := by
  norm_num [TransactionService.get_monthly_spending,
    TransactionService.monthly_transactions, Account.list_transactions,
    Account.init, Account.add_transaction, monthStart, monthEnd, Date.le]

/-- Claim C2 counterexample: a category whose current-month net total is
strictly positive (+500) yields spent = 500, not spent = 0 as the claim
states; the claimed record with spent 0 and remaining 100 is not
returned. -/
theorem c2_spent_not_zero_for_positive_net :
    (TransactionService.mk
        (Account.init.add_transaction ⟨⟨2023, 10, 5⟩, 500, "Salary", "", none⟩)
        (some ⟨[("Salary", 100)]⟩)).get_category_totals 2023 10 =
      [("Salary", 500)] ∧
    (TransactionService.mk
        (Account.init.add_transaction ⟨⟨2023, 10, 5⟩, 500, "Salary", "", none⟩)
        (some ⟨[("Salary", 100)]⟩)).get_budget_status 2023 10 "Salary" =
      some ⟨100, 500, -400⟩ ∧
    (TransactionService.mk
        (Account.init.add_transaction ⟨⟨2023, 10, 5⟩, 500, "Salary", "", none⟩)
        (some ⟨[("Salary", 100)]⟩)).get_budget_status 2023 10 "Salary" ≠
      some ⟨100, 0, 100⟩ := by
  refine ⟨?_, ?_, ?_⟩ <;>
    norm_num [TransactionService.get_budget_status,
      TransactionService.get_category_totals,
      TransactionService.monthly_transactions, Account.list_transactions,
      Account.init, Account.add_transaction, monthStart, monthEnd, Date.le,
      dictGet, dictSet, Budget.get_budget, List.find?]

/-- Claim C2 (amended): with a Budget attached, get_budget_status returns
budget = the stored limit (0 when none is stored), spent = the absolute
value of the current-month net total for the category regardless of its
sign, and remaining = budget - spent; with no Budget attached it returns
the None sentinel. -/
theorem c2_budget_status (svc : TransactionService) (y m : Nat)
    (category : String) :
    (∀ b, svc.budget = some b →
      svc.get_budget_status y m category =
        some ⟨b.get_budget category,
              |dictGet (svc.get_category_totals y m) category 0|,
              b.get_budget category -
                |dictGet (svc.get_category_totals y m) category 0|⟩) ∧
    (svc.budget = none → svc.get_budget_status y m category = none) := by
  constructor
  · intro b hb
    simp [TransactionService.get_budget_status, hb]
  · intro hb
    simp [TransactionService.get_budget_status, hb]

/-- Witness for C2 at a concrete service: limit 200, month net -80. -/
theorem c2_budget_status_witness :
    (TransactionService.mk
        (Account.init.add_transaction ⟨⟨2023, 10, 5⟩, -80, "Food", "", none⟩)
        (some ⟨[("Food", 200)]⟩)).get_budget_status 2023 10 "Food" =
      some ⟨200, 80, 120⟩ := by
  have h := (c2_budget_status
      (TransactionService.mk
        (Account.init.add_transaction ⟨⟨2023, 10, 5⟩, -80, "Food", "", none⟩)
        (some ⟨[("Food", 200)]⟩)) 2023 10 "Food").1 ⟨[("Food", 200)]⟩ rfl
  rw [h]
  norm_num [TransactionService.get_category_totals,
    TransactionService.monthly_transactions, Account.list_transactions,
    Account.init, Account.add_transaction, monthStart, monthEnd, Date.le,
    dictGet, dictSet, Budget.get_budget, List.find?]

/-- Summing f over a filtered list equals summing the if-guarded f over
the whole list. -/
theorem sum_filter_map_eq (ts : List Transaction) (p : Transaction → Bool)
    (f : Transaction → ℚ) :
    ((ts.filter p).map f).sum =
      (ts.map (fun t => if p t then f t else 0)).sum := by
  induction ts with
  | nil => rfl
  | cons t rest ih =>
    by_cases h : p t = true <;>
      simp [List.filter_cons, h, ih]

/-- Claim C3: get_monthly_spending is the sum of the absolute values of
the strictly negative amounts among the transactions the month
aggregation considers, get_monthly_income is the sum of the strictly
positive amounts there, and each is 0 when no such transaction exists. -/
theorem c3_monthly_spending_income (svc : TransactionService) (y m : Nat) :
    svc.get_monthly_spending y m = specSpending (svc.monthly_transactions y m) ∧
    svc.get_monthly_income y m = specIncome (svc.monthly_transactions y m) ∧
    ((∀ t ∈ svc.monthly_transactions y m, ¬t.amount < 0) →
      svc.get_monthly_spending y m = 0) ∧
    ((∀ t ∈ svc.monthly_transactions y m, ¬0 < t.amount) →
      svc.get_monthly_income y m = 0) := by
  refine ⟨?_, ?_, ?_, ?_⟩
  · unfold TransactionService.get_monthly_spending specSpending
    rw [sum_filter_map_eq]
    simp only [decide_eq_true_eq]
  · unfold TransactionService.get_monthly_income specIncome
    rw [sum_filter_map_eq]
    simp only [decide_eq_true_eq, gt_iff_lt]
  · intro h
    unfold TransactionService.get_monthly_spending
    have hf : (svc.monthly_transactions y m).filter
        (fun t => decide (t.amount < 0)) = [] := by
      rw [List.filter_eq_nil_iff]
      intro t ht
      simpa using h t ht
    rw [hf]
    rfl
  · intro h
    unfold TransactionService.get_monthly_income
    have hf : (svc.monthly_transactions y m).filter
        (fun t => decide (t.amount > 0)) = [] := by
      rw [List.filter_eq_nil_iff]
      intro t ht
      simpa using h t ht
    rw [hf]
    rfl

/-- Witness for C3: a month containing only an income transaction has
spending 0. -/
theorem c3_monthly_spending_income_witness :
    (TransactionService.mk
        (Account.init.add_transaction ⟨⟨2023, 10, 3⟩, 100, "Income", "", none⟩)
        none).get_monthly_spending 2023 10 = 0 := by
  exact (c3_monthly_spending_income
    (TransactionService.mk
        (Account.init.add_transaction ⟨⟨2023, 10, 3⟩, 100, "Income", "", none⟩)
        none) 2023 10).2.2.1 (by decide)

/-- Claim C8: Transaction construction succeeds exactly when the date is
a date value, the amount is numeric and the category is non-empty text
(no partial object escapes otherwise, since only the success case builds
one); on success the serialized view keeps date (ISO-8601 string),
amount, category and description exactly and has no id entry. -/
theorem c8_transaction_construction (dv av cv : PyVal) (ds : String) :
    ((∃ t, mkTransaction dv av cv ds = .ok t) ↔
      ((∃ d, dv = .vdate d) ∧ (∃ q, av = .vnum q) ∧
        (∃ s, cv = .vstr s ∧ s ≠ ""))) ∧
    (∀ d q s, s ≠ "" →
      mkTransaction (.vdate d) (.vnum q) (.vstr s) ds =
        .ok ⟨d, q, s, ds, none⟩) ∧
    (∀ t : Transaction,
      t.to_dict.map Prod.fst = ["date", "amount", "category", "description"] ∧
      t.to_dict.lookup "date" = some (.str t.date.isoformat) ∧
      t.to_dict.lookup "amount" = some (.num t.amount) ∧
      t.to_dict.lookup "category" = some (.str t.category) ∧
      t.to_dict.lookup "description" = some (.str t.description) ∧
      t.to_dict.lookup "id" = none) := by
  refine ⟨?_, ?_, ?_⟩
  · constructor
    · rintro ⟨t, ht⟩
      cases dv <;> cases av <;> cases cv <;>
        simp [mkTransaction] at ht ⊢
      rename_i s
      by_cases hs : s = "" <;> simp [hs] at ht ⊢
    · rintro ⟨⟨d, rfl⟩, ⟨q, rfl⟩, ⟨s, rfl, hs⟩⟩
      exact ⟨⟨d, q, s, ds, none⟩, by simp [mkTransaction, hs]⟩
  · intro d q s hs
    simp [mkTransaction, hs]
  · intro t
    refine ⟨rfl, rfl, rfl, rfl, rfl, rfl⟩

/-- Witness for C8: a valid triple constructs successfully. -/
theorem c8_transaction_construction_witness :
    mkTransaction (.vdate ⟨2023, 10, 1⟩) (.vnum 100) (.vstr "Income") "Salary" =
      .ok ⟨⟨2023, 10, 1⟩, 100, "Income", "Salary", none⟩ :=
  (c8_transaction_construction (.vdate ⟨2023, 10, 1⟩) (.vnum 100)
    (.vstr "Income") "Salary").2.1 ⟨2023, 10, 1⟩ 100 "Income" (by decide)

/-- After replacing the first id match, the id lookup finds the
replacement. -/
theorem find?_replaceById (ts : List Transaction) (i : Nat)
    (t t' : Transaction)
    (h : ts.find? (fun x => decide (x.id = some i)) = some t)
    (h' : t'.id = some i) :
    (replaceById ts i t').find? (fun x => decide (x.id = some i)) =
      some t' := by
  induction ts with
  | nil => simp [List.find?] at h
  | cons a rest ih =>
    by_cases ha : a.id = some i
    · simp [replaceById, ha, List.find?, h']
    · rw [List.find?_cons_of_neg _ (by simpa using ha)] at h
      rw [replaceById]
      simp only [if_neg ha]
      rw [List.find?_cons_of_neg _ (by simpa using ha)]
      exact ih h

/-- Claim C9: update_transaction validates and applies the provided
fields one at a time in the order date, amount, category, description;
with a valid new date together with a non-numeric amount the call raises
the amount validation error, yet the stored transaction already carries
the new date, so the update is not atomic on validation failure. -/
theorem c9_partial_update (acc : Account) (i : Nat) (t : Transaction)
    (d : Date) (bad : PyVal)
    (hfind : acc.get_transaction_by_id i = some t)
    (hbad : ∀ q, bad ≠ .vnum q) :
    (acc.update_transaction i (some (.vdate d)) (some bad) none none).2 =
      some "amount must be a number" ∧
    ((acc.update_transaction i (some (.vdate d)) (some bad)
        none none).1).get_transaction_by_id i = some { t with date := d } := by
  have hfind' : acc.transactions.find? (fun x => decide (x.id = some i)) =
      some t := hfind
  have hid : t.id = some i := by simpa using List.find?_some hfind'
  have happ : applyFieldUpdates t (some (.vdate d)) (some bad) none none =
      ({ t with date := d }, some "amount must be a number") := by
    cases bad with
    | vnum q => exact absurd rfl (hbad q)
    | vdate d2 => rfl
    | vstr s => rfl
  have hupd : acc.update_transaction i (some (.vdate d)) (some bad)
      none none =
      ({ acc with
          transactions := replaceById acc.transactions i { t with date := d } },
       some "amount must be a number") := by
    unfold Account.update_transaction
    rw [hfind]
    simp [happ]
  rw [hupd]
  refine ⟨rfl, ?_⟩
  exact find?_replaceById acc.transactions i t { t with date := d } hfind'
    (by simpa using hid)

/-- Witness for C9: a one-transaction account, new date plus a string
amount: the error is raised and the date is already changed. -/
theorem c9_partial_update_witness :
    ((Account.init.add_transaction
        ⟨⟨2023, 1, 1⟩, 5, "Food", "", none⟩).update_transaction 1
        (some (.vdate ⟨2024, 2, 2⟩)) (some (.vstr "oops")) none none).2 =
      some "amount must be a number" ∧
    (((Account.init.add_transaction
        ⟨⟨2023, 1, 1⟩, 5, "Food", "", none⟩).update_transaction 1
        (some (.vdate ⟨2024, 2, 2⟩)) (some (.vstr "oops"))
        none none).1).get_transaction_by_id 1 =
      some ⟨⟨2024, 2, 2⟩, 5, "Food", "", some 1⟩ := by
  have h := c9_partial_update
    (Account.init.add_transaction ⟨⟨2023, 1, 1⟩, 5, "Food", "", none⟩) 1
    ⟨⟨2023, 1, 1⟩, 5, "Food", "", some 1⟩ ⟨2024, 2, 2⟩ (.vstr "oops")
    (by decide) (by intro q h; cases h)
  exact h

/-- Reading a dict one entry at a time. -/
theorem dictGet_cons (p : String × ℚ) (rest : List (String × ℚ))
    (k : String) (v₀ : ℚ) :
    dictGet (p :: rest) k v₀ =
      if p.1 = k then p.2 else dictGet rest k v₀ := by
  by_cases h : p.1 = k <;> simp [dictGet, List.find?, h]

/-- Looking a dict up one entry at a time. -/
theorem dictFind_cons (p : String × ℚ) (rest : List (String × ℚ))
    (k : String) :
    dictFind (p :: rest) k =
      if p.1 = k then some p.2 else dictFind rest k := by
  by_cases h : p.1 = k <;> simp [dictFind, List.find?, h]

/-- Reading a dict after an assignment. -/
theorem dictGet_dictSet (d : List (String × ℚ)) (k k' : String) (v v₀ : ℚ) :
    dictGet (dictSet d k v) k' v₀ = if k' = k then v else dictGet d k' v₀ := by
  induction d with
  | nil =>
    rw [show dictSet [] k v = [(k, v)] from rfl, dictGet_cons]
    by_cases h : k' = k
    · rw [if_pos h.symm, if_pos h]
    · rw [if_neg (fun e => h e.symm), if_neg h]
  | cons p rest ih =>
    by_cases hpk : p.1 = k
    · rw [show dictSet (p :: rest) k v = (k, v) :: rest by
        simp [dictSet, hpk], dictGet_cons, dictGet_cons]
      by_cases h : k' = k
      · rw [if_pos h.symm, if_pos h]
      · rw [if_neg (fun e => h e.symm), if_neg h,
          if_neg (fun e : p.1 = k' => h (e.symm.trans hpk))]
    · rw [show dictSet (p :: rest) k v = p :: dictSet rest k v by
        simp [dictSet, hpk], dictGet_cons, dictGet_cons]
      by_cases hpc : p.1 = k'
      · have hkk : ¬(k' = k) := fun e => hpk (hpc.trans e)
        rw [if_pos hpc, if_neg hkk, if_pos hpc]
      · rw [if_neg hpc, if_neg hpc, ih]

/-- Key list after a dict assignment: unchanged for an existing key, the
new key appended otherwise. -/
theorem keys_dictSet (d : List (String × ℚ)) (k : String) (v : ℚ) :
    (dictSet d k v).map Prod.fst =
      if k ∈ d.map Prod.fst then d.map Prod.fst
      else d.map Prod.fst ++ [k] := by
  induction d with
  | nil => simp [dictSet]
  | cons p rest ih =>
    by_cases hpk : p.1 = k
    · have hk : k ∈ (p :: rest).map Prod.fst := by
        rw [List.map_cons, List.mem_cons]
        exact Or.inl hpk.symm
      rw [show dictSet (p :: rest) k v = (k, v) :: rest by
        simp [dictSet, hpk], if_pos hk, List.map_cons, List.map_cons, hpk]
    · rw [show dictSet (p :: rest) k v = p :: dictSet rest k v by
        simp [dictSet, hpk], List.map_cons, ih, List.map_cons]
      by_cases hk : k ∈ rest.map Prod.fst
      · rw [if_pos hk, if_pos (by rw [List.mem_cons]; exact Or.inr hk)]
      · have hnot : k ∉ p.1 :: rest.map Prod.fst := by
          rw [List.mem_cons]
          rintro (e | e)
          · exact hpk e.symm
          · exact hk e
        rw [if_neg hk, if_neg hnot, List.cons_append]

/-- Amount contributed by the head transaction to a category total. -/
theorem categoryTotal_cons (t : Transaction) (rest : List Transaction)
    (c : String) :
    categoryTotal (t :: rest) c =
      (if t.category = c then t.amount else 0) + categoryTotal rest c := by
  by_cases h : t.category = c <;>
    simp [categoryTotal, List.filter_cons, h]

/-- Value of the category-totals fold at any key: the initial value plus
the signed sum of that category's amounts. -/
theorem totals_dictGet (ts : List Transaction) (d : List (String × ℚ))
    (c : String) :
    dictGet (ts.foldl
        (fun d t => dictSet d t.category (dictGet d t.category 0 + t.amount))
        d) c 0 =
      dictGet d c 0 + categoryTotal ts c := by
  induction ts generalizing d with
  | nil => simp [categoryTotal]
  | cons t rest ih =>
    rw [List.foldl_cons, ih, dictGet_dictSet, categoryTotal_cons]
    by_cases h : c = t.category
    · rw [if_pos h, if_pos h.symm, h]
      ring
    · rw [if_neg h, if_neg (fun e => h e.symm)]
      ring

/-- Key list of the category-totals fold: the first-occurrence fold of
the category sequence. -/
theorem totals_keys (ts : List Transaction) (d : List (String × ℚ)) :
    (ts.foldl
        (fun d t => dictSet d t.category (dictGet d t.category 0 + t.amount))
        d).map Prod.fst =
      (ts.map Transaction.category).foldl
        (fun ks c => if c ∈ ks then ks else ks ++ [c]) (d.map Prod.fst) := by
  induction ts generalizing d with
  | nil => rfl
  | cons t rest ih =>
    rw [List.foldl_cons, ih, List.map_cons, List.foldl_cons, keys_dictSet]

/-- Membership in the first-occurrence fold. -/
theorem mem_firstOccur_foldl (cs : List String) (acc : List String)
    (c : String) :
    (c ∈ cs.foldl (fun ks x => if x ∈ ks then ks else ks ++ [x]) acc) ↔
      c ∈ acc ∨ c ∈ cs := by
  induction cs generalizing acc with
  | nil => simp
  | cons x rest ih =>
    rw [List.foldl_cons]
    by_cases hx : x ∈ acc
    · rw [if_pos hx, ih]
      constructor
      · rintro (h | h)
        · exact Or.inl h
        · exact Or.inr (List.mem_cons_of_mem x h)
      · rintro (h | h)
        · exact Or.inl h
        · rcases List.mem_cons.mp h with rfl | h2
          · exact Or.inl hx
          · exact Or.inr h2
    · rw [if_neg hx, ih]
      simp only [List.mem_append, List.mem_singleton, List.mem_cons]
      tauto

/-- The first-occurrence fold preserves key distinctness. -/
theorem nodup_firstOccur_foldl (cs : List String) (acc : List String)
    (h : acc.Nodup) :
    (cs.foldl (fun ks x => if x ∈ ks then ks else ks ++ [x]) acc).Nodup := by
  induction cs generalizing acc with
  | nil => exact h
  | cons x rest ih =>
    rw [List.foldl_cons]
    by_cases hx : x ∈ acc
    · rw [if_pos hx]
      exact ih _ h
    · rw [if_neg hx]
      exact ih _ (by simp [List.nodup_append, h, hx])

/-- A key absent from a dict looks up to nothing. -/
theorem dictFind_eq_none (d : List (String × ℚ)) (c : String)
    (h : c ∉ d.map Prod.fst) : dictFind d c = none := by
  induction d with
  | nil => rfl
  | cons p rest ih =>
    rw [List.map_cons, List.mem_cons] at h
    push_neg at h
    rw [dictFind_cons, if_neg (fun e => h.1 e.symm)]
    exact ih h.2

/-- A present key looks up to its dictGet value. -/
theorem dictFind_eq_some (d : List (String × ℚ)) (c : String)
    (h : c ∈ d.map Prod.fst) : dictFind d c = some (dictGet d c 0) := by
  induction d with
  | nil => simp at h
  | cons p rest ih =>
    rw [List.map_cons, List.mem_cons] at h
    by_cases hc : p.1 = c
    · rw [dictFind_cons, dictGet_cons, if_pos hc, if_pos hc]
    · rw [dictFind_cons, dictGet_cons, if_neg hc, if_neg hc]
      rcases h with h1 | h1
      · exact absurd h1.symm hc
      · exact ih h1

/-- Keys of the negative-filtered absolute-value view come from the
original dict. -/
theorem mem_keys_filter_abs (d : List (String × ℚ))
    (q : String × ℚ → Bool) (c : String)
    (h : c ∈ ((d.filter q).map (fun p => (p.1, |p.2|))).map Prod.fst) :
    c ∈ d.map Prod.fst := by
  rw [List.map_map] at h
  rcases List.mem_map.mp h with ⟨p, hp, he⟩
  exact List.mem_map.mpr ⟨p, (List.mem_filter.mp hp).1, he⟩

/-- Lookup in the spending view of a dict with distinct keys: present as
the absolute value exactly for the strictly negative entries. -/
theorem dictFind_filter_abs (d : List (String × ℚ)) (c : String)
    (hnd : (d.map Prod.fst).Nodup) :
    dictFind ((d.filter (fun p => decide (p.2 < 0))).map
        (fun p => (p.1, |p.2|))) c =
      match dictFind d c with
      | some v => if v < 0 then some |v| else none
      | none => none := by
  induction d with
  | nil => rfl
  | cons p rest ih =>
    rw [List.map_cons] at hnd
    have hnd2 : (rest.map Prod.fst).Nodup := (List.nodup_cons.mp hnd).2
    have hntail : p.1 ∉ rest.map Prod.fst := (List.nodup_cons.mp hnd).1
    by_cases hneg : p.2 < 0
    · have hfL : ((p :: rest).filter (fun q => decide (q.2 < 0))).map
          (fun q => (q.1, |q.2|)) =
          (p.1, |p.2|) :: (rest.filter (fun q => decide (q.2 < 0))).map
            (fun q => (q.1, |q.2|)) := by
        rw [List.filter_cons, if_pos (by simpa using hneg), List.map_cons]
      by_cases hc : p.1 = c
      · rw [hfL, dictFind_cons, dictFind_cons, if_pos hc, if_pos hc]
        simp [hneg]
      · rw [hfL, dictFind_cons, dictFind_cons, if_neg hc, if_neg hc]
        exact ih hnd2
    · have hfL : ((p :: rest).filter (fun q => decide (q.2 < 0))).map
          (fun q => (q.1, |q.2|)) =
          (rest.filter (fun q => decide (q.2 < 0))).map
            (fun q => (q.1, |q.2|)) := by
        rw [List.filter_cons, if_neg (by simpa using hneg)]
      by_cases hc : p.1 = c
      · subst hc
        have habs : dictFind ((rest.filter (fun q => decide (q.2 < 0))).map
            (fun q => (q.1, |q.2|))) p.1 = none :=
          dictFind_eq_none _ _ (fun hmem => hntail
            (mem_keys_filter_abs rest _ p.1 hmem))
        rw [hfL, habs, dictFind_cons, if_pos rfl]
        simp [hneg]
      · rw [hfL, dictFind_cons, if_neg hc]
        exact ih hnd2

/-- Claim C4: getCategoryTotals keys the categories of the considered
transactions in first-occurrence order, each exactly once, and maps each
to the signed sum of its amounts; getCategorySpending keeps exactly the
strictly negative net totals, as positive magnitudes, and omits every
category with net-positive or net-zero total. -/
theorem c4_category_totals (svc : TransactionService) (y m : Nat) :
    ((svc.get_category_totals y m).map Prod.fst =
        firstOccur ((svc.monthly_transactions y m).map Transaction.category)) ∧
    ((svc.get_category_totals y m).map Prod.fst).Nodup ∧
    (∀ c, c ∈ (svc.monthly_transactions y m).map Transaction.category →
        dictFind (svc.get_category_totals y m) c =
          some (categoryTotal (svc.monthly_transactions y m) c)) ∧
    (∀ c, c ∉ (svc.monthly_transactions y m).map Transaction.category →
        dictFind (svc.get_category_totals y m) c = none) ∧
    (∀ c, categoryTotal (svc.monthly_transactions y m) c < 0 →
        c ∈ (svc.monthly_transactions y m).map Transaction.category →
        dictFind (svc.get_category_spending y m) c =
          some |categoryTotal (svc.monthly_transactions y m) c|) ∧
    (∀ c, ¬categoryTotal (svc.monthly_transactions y m) c < 0 →
        dictFind (svc.get_category_spending y m) c = none) := by
  have hkeys : (svc.get_category_totals y m).map Prod.fst =
      firstOccur ((svc.monthly_transactions y m).map Transaction.category) := by
    unfold TransactionService.get_category_totals firstOccur
    rw [totals_keys]
    rfl
  have hnd : ((svc.get_category_totals y m).map Prod.fst).Nodup := by
    rw [hkeys]
    exact nodup_firstOccur_foldl _ [] List.nodup_nil
  have hmemkeys : ∀ c,
      (c ∈ (svc.get_category_totals y m).map Prod.fst ↔
        c ∈ (svc.monthly_transactions y m).map Transaction.category) := by
    intro c
    rw [hkeys]
    unfold firstOccur
    rw [mem_firstOccur_foldl]
    simp
  have hval : ∀ c, dictGet (svc.get_category_totals y m) c 0 =
      categoryTotal (svc.monthly_transactions y m) c := by
    intro c
    unfold TransactionService.get_category_totals
    rw [totals_dictGet]
    simp [dictGet]
  have hsome : ∀ c,
      c ∈ (svc.monthly_transactions y m).map Transaction.category →
      dictFind (svc.get_category_totals y m) c =
        some (categoryTotal (svc.monthly_transactions y m) c) := by
    intro c hc
    rw [dictFind_eq_some _ _ ((hmemkeys c).mpr hc), hval]
  have hnone : ∀ c,
      c ∉ (svc.monthly_transactions y m).map Transaction.category →
      dictFind (svc.get_category_totals y m) c = none := by
    intro c hc
    exact dictFind_eq_none _ _ (fun h => hc ((hmemkeys c).mp h))
  have hspend : ∀ c, dictFind (svc.get_category_spending y m) c =
      match dictFind (svc.get_category_totals y m) c with
      | some v => if v < 0 then some |v| else none
      | none => none := by
    intro c
    unfold TransactionService.get_category_spending
    exact dictFind_filter_abs _ c hnd
  refine ⟨hkeys, hnd, hsome, hnone, ?_, ?_⟩
  · intro c hneg hc
    rw [hspend, hsome c hc]
    simp [hneg]
  · intro c hpos
    rw [hspend]
    by_cases hc : c ∈ (svc.monthly_transactions y m).map Transaction.category
    · rw [hsome c hc]
      simp [hpos]
    · rw [hnone c hc]

/-- Witness for C4 on a three-transaction October: Groceries nets -75 and
appears in the spending view as 75. -/
theorem c4_category_totals_witness :
    dictFind ((TransactionService.mk
        (((Account.init.add_transaction
              ⟨⟨2023, 10, 1⟩, -50, "Groceries", "", none⟩).add_transaction
              ⟨⟨2023, 10, 2⟩, -25, "Groceries", "", none⟩).add_transaction
              ⟨⟨2023, 10, 3⟩, 1000, "Income", "", none⟩)
        none).get_category_spending 2023 10) "Groceries" = some 75 := by
  have h := (c4_category_totals (TransactionService.mk
        (((Account.init.add_transaction
              ⟨⟨2023, 10, 1⟩, -50, "Groceries", "", none⟩).add_transaction
              ⟨⟨2023, 10, 2⟩, -25, "Groceries", "", none⟩).add_transaction
              ⟨⟨2023, 10, 3⟩, 1000, "Income", "", none⟩)
        none) 2023 10).2.2.2.2.1 "Groceries"
      (by simp +decide [categoryTotal, TransactionService.monthly_transactions,
        Account.list_transactions, Account.init, Account.add_transaction,
        monthStart, monthEnd, Date.le, List.filter])
      (by decide)
  rw [h]
  simp +decide [categoryTotal, TransactionService.monthly_transactions,
    Account.list_transactions, Account.init, Account.add_transaction,
    monthStart, monthEnd, Date.le, List.filter]
  norm_num

/-- A line whose parse-and-validate succeeds makes processLine add the
transaction, with the account's counter as its id. -/
theorem processLine_ok (svc : TransactionService) (line : String)
    (t : Transaction) (h : lineResult line = .ok t) :
    processLine svc line =
      .ok ({ svc with account := svc.account.add_transaction t },
        { t with id := some svc.account.next_id }) := by
  unfold lineResult at h
  unfold processLine TransactionService.create_transaction
  cases hp : parse_csv_line line with
  | error e =>
    rw [hp] at h
    simp at h
  | ok r =>
    rw [hp] at h
    obtain ⟨d, a, c, ds⟩ := r
    simp only at h ⊢
    cases hm : mkTransaction (.vdate d) (.vnum a) (.vstr c) ds with
    | error e2 =>
      rw [hm] at h
      simp at h
    | ok t2 =>
      rw [hm] at h
      simp at h
      subst h
      simp only

/-- A line whose parse-and-validate fails makes processLine fail with the
same message. -/
theorem processLine_error (svc : TransactionService) (line : String)
    (e : String) (h : lineResult line = .error e) :
    processLine svc line = .error e := by
  unfold lineResult at h
  unfold processLine TransactionService.create_transaction
  cases hp : parse_csv_line line with
  | error e2 =>
    rw [hp] at h
    simp at h
    subst h
    simp only
  | ok r =>
    rw [hp] at h
    obtain ⟨d, a, c, ds⟩ := r
    simp only at h ⊢
    cases hm : mkTransaction (.vdate d) (.vnum a) (.vstr c) ds with
    | error e2 =>
      rw [hm] at h
      simp at h
      subst h
      simp only
    | ok t2 =>
      rw [hm] at h
      simp at h

/-- Full characterization of the import loop: the count of successful
lines, the indexed error messages, the appended transactions with their
sequential ids, and the untouched budget. -/
theorem importLoop_spec (lines : List String) (svc : TransactionService)
    (i : Nat) :
    importLoop svc i lines =
      (⟨⟨svc.account.transactions ++ newTxns svc.account.next_id lines,
          svc.account.next_id + (lines.filter lineOk).length⟩, svc.budget⟩,
       (lines.filter lineOk).length,
       lineErrors i lines) := by
  induction lines generalizing svc i with
  | nil =>
    simp [importLoop, newTxns, lineErrors]
  | cons line rest ih =>
    cases hl : lineResult line with
    | ok t =>
      rw [importLoop, processLine_ok svc line t hl]
      simp only
      rw [ih]
      have hok : lineOk line = true := by
        unfold lineOk
        rw [hl]
      simp [newTxns, hl, lineErrors, hok, Account.add_transaction,
        List.append_assoc, List.filter_cons]
      omega
    | error e =>
      rw [importLoop, processLine_error svc line e hl]
      simp only
      rw [ih]
      have hok : lineOk line = false := by
        unfold lineOk
        rw [hl]
      simp [newTxns, hl, lineErrors, hok, List.filter_cons]

/-- Claim C5: importTransactionsFromCsv processes each line of the
trimmed input independently in order: every failing line contributes
"Line i+1: message" to the ordered error list and adds nothing, every
successful line appends exactly one transaction with the next sequential
id, earlier lines are never rolled back, and the returned count is the
number of successful lines.  On the concrete 3-line input whose second
line is malformed it imports 2 transactions with ids 1 and 2 and reports
one Line 2 error. -/
theorem c5_import_per_line :
    (∀ (svc : TransactionService) (csv : String),
      svc.import_transactions_from_csv csv =
        (⟨⟨svc.account.transactions ++
              newTxns svc.account.next_id (splitlines (pythonStrip csv)),
            svc.account.next_id +
              ((splitlines (pythonStrip csv)).filter lineOk).length⟩,
          svc.budget⟩,
         ((splitlines (pythonStrip csv)).filter lineOk).length,
         lineErrors 0 (splitlines (pythonStrip csv)))) ∧
    (TransactionService.mk Account.init none).import_transactions_from_csv
        "2023-10-01,-50.00,Groceries,Weekly shop\nbogus\n10/02/2023,25.50,Salary,Pay" =
      (⟨⟨[⟨⟨2023, 10, 1⟩, -50, "Groceries", "Weekly shop", some 1⟩,
          ⟨⟨2023, 10, 2⟩, 51 / 2, "Salary", "Pay", some 2⟩], 3⟩, none⟩,
       2, ["Line 2: Line does not match expected format: bogus"]) := by
  constructor
  · intro svc csv
    exact importLoop_spec (splitlines (pythonStrip csv)) svc 0
  · simp +decide [TransactionService.import_transactions_from_csv,
      importLoop, processLine, parse_csv_line, parseShape, parseDate,
      parseDashDate, parseSlashDate, parseD12slash, parseYear4, parseComma,
      parseAmount, parseCategoryDesc, skipSpaces, isPySpace, pythonStrip,
      splitlines, splitlinesAux, dval, digitsVal, validYMD, daysInMonth,
      isLeapYear, TransactionService.create_transaction, mkTransaction,
      Account.add_transaction, Account.init]
    norm_num

/-- next_id moves only on an add, by exactly one. -/
theorem applyOp_next_id (acc : Account) (op : AccountOp) :
    (applyOp acc op).next_id = acc.next_id + (if op.isAdd then 1 else 0) := by
  cases op with
  | addT t => simp [applyOp, Account.add_transaction, AccountOp.isAdd]
  | deleteT i =>
    cases h : acc.get_transaction_by_id i <;>
      simp [applyOp, Account.delete_transaction, h, AccountOp.isAdd]
  | updateT i d a c ds =>
    cases h : acc.get_transaction_by_id i <;>
      simp [applyOp, Account.update_transaction, h, AccountOp.isAdd]

/-- Folding operations adds countAdds to next_id. -/
theorem foldl_next_id (ops : List AccountOp) (acc : Account) :
    (ops.foldl applyOp acc).next_id = acc.next_id + countAdds ops := by
  induction ops generalizing acc with
  | nil => simp [countAdds]
  | cons op rest ih =>
    rw [List.foldl_cons, ih, applyOp_next_id]
    unfold countAdds
    rw [List.filter_cons]
    by_cases h : op.isAdd <;> simp [h] <;> omega

/-- Removing by id yields a sublist. -/
theorem removeById_sublist (ts : List Transaction) (i : Nat) :
    (removeById ts i).Sublist ts := by
  induction ts with
  | nil => simp [removeById]
  | cons t rest ih =>
    rw [removeById]
    by_cases h : t.id = some i
    · rw [if_pos h]
      exact List.sublist_cons_self t rest
    · rw [if_neg h]
      exact List.Sublist.cons₂ t ih

/-- The updChain combinator leaves the id alone when its step does. -/
theorem updChain_id (r : Transaction × Option String)
    (f : Transaction → Transaction × Option String)
    (hf : ∀ u, (f u).1.id = u.id) : (updChain r f).1.id = r.1.id := by
  unfold updChain
  cases h : r.2 <;> simp [hf]

/-- The date step never touches the id. -/
theorem updDate_id (d : Option PyVal) (t : Transaction) :
    (updDate d t).1.id = t.id := by
  cases d with
  | none => rfl
  | some v => cases v <;> rfl

/-- The amount step never touches the id. -/
theorem updAmount_id (a : Option PyVal) (t : Transaction) :
    (updAmount a t).1.id = t.id := by
  cases a with
  | none => rfl
  | some v => cases v <;> rfl

/-- The category step never touches the id. -/
theorem updCategory_id (c : Option PyVal) (t : Transaction) :
    (updCategory c t).1.id = t.id := by
  cases c with
  | none => rfl
  | some v =>
    cases v with
    | vstr s => by_cases h : s = "" <;> simp [updCategory, h]
    | vdate d => rfl
    | vnum q => rfl

/-- The description step never touches the id. -/
theorem updDescription_id (ds : Option String) (t : Transaction) :
    (updDescription ds t).1.id = t.id := by
  cases ds <;> rfl

/-- update_transaction's field updates never touch the id. -/
theorem applyFieldUpdates_id (t : Transaction) (d a c : Option PyVal)
    (ds : Option String) : (applyFieldUpdates t d a c ds).1.id = t.id := by
  unfold applyFieldUpdates
  rw [updChain_id _ _ (updDescription_id _),
    updChain_id _ _ (updCategory_id _),
    updChain_id _ _ (updAmount_id _), updDate_id]

/-- Replacing an entry by the same id keeps the id sequence. -/
theorem replaceById_map_id (ts : List Transaction) (i : Nat)
    (t' : Transaction) (h : t'.id = some i) :
    (replaceById ts i t').map Transaction.id = ts.map Transaction.id := by
  induction ts with
  | nil => rfl
  | cons t rest ih =>
    rw [replaceById]
    by_cases ht : t.id = some i
    · rw [if_pos ht, List.map_cons, List.map_cons, h, ht]
    · rw [if_neg ht, List.map_cons, List.map_cons, ih]

/-- update_transaction keeps the id sequence of the account. -/
theorem update_map_id (acc : Account) (i : Nat) (d a c : Option PyVal)
    (ds : Option String) :
    ((acc.update_transaction i d a c ds).1).transactions.map Transaction.id =
      acc.transactions.map Transaction.id := by
  unfold Account.update_transaction
  cases h : acc.get_transaction_by_id i with
  | none => simp
  | some t =>
    simp only
    have hid : t.id = some i := by
      have := List.find?_some (h : acc.transactions.find?
        (fun x => decide (x.id = some i)) = some t)
      simpa using this
    exact replaceById_map_id _ _ _ (by rw [applyFieldUpdates_id]; exact hid)

/-- One operation preserves the id invariant: every live id is below
next_id and the live ids are pairwise distinct. -/
theorem applyOp_invariant (acc : Account) (op : AccountOp)
    (h1 : ∀ t ∈ acc.transactions, ∃ j, t.id = some j ∧ j < acc.next_id)
    (h2 : (acc.transactions.map Transaction.id).Nodup) :
    (∀ t ∈ (applyOp acc op).transactions,
      ∃ j, t.id = some j ∧ j < (applyOp acc op).next_id) ∧
    ((applyOp acc op).transactions.map Transaction.id).Nodup := by
  cases op with
  | addT t =>
    constructor
    · intro u hu
      simp only [applyOp, Account.add_transaction] at hu ⊢
      rcases List.mem_append.mp hu with hu1 | hu1
      · obtain ⟨j, hj1, hj2⟩ := h1 u hu1
        exact ⟨j, hj1, Nat.lt_succ_of_lt hj2⟩
      · rcases List.mem_singleton.mp hu1 with rfl
        exact ⟨acc.next_id, rfl, Nat.lt_succ_self _⟩
    · simp only [applyOp, Account.add_transaction, List.map_append,
        List.map_cons, List.map_nil]
      rw [List.nodup_append]
      refine ⟨h2, List.nodup_singleton _, ?_⟩
      intro x hx hx1
      rcases List.mem_singleton.mp hx1 with rfl
      rcases List.mem_map.mp hx with ⟨u, hu, hid⟩
      obtain ⟨j, hj1, hj2⟩ := h1 u hu
      rw [hj1] at hid
      have : j = acc.next_id := by
        have := hid
        simpa using this
      omega
  | deleteT i =>
    have hsub : ((applyOp acc (.deleteT i)).transactions).Sublist
        acc.transactions := by
      simp only [applyOp]
      unfold Account.delete_transaction
      cases h : acc.get_transaction_by_id i
      · simp
      · simp only
        exact removeById_sublist _ _
    have hnext : (applyOp acc (.deleteT i)).next_id = acc.next_id := by
      rw [applyOp_next_id]
      simp [AccountOp.isAdd]
    constructor
    · intro u hu
      rw [hnext]
      exact h1 u (hsub.mem hu)
    · exact List.Nodup.sublist (hsub.map Transaction.id) h2
  | updateT i d a c ds =>
    have hmap : ((applyOp acc (.updateT i d a c ds)).transactions).map
        Transaction.id = acc.transactions.map Transaction.id :=
      update_map_id acc i d a c ds
    have hnext : (applyOp acc (.updateT i d a c ds)).next_id =
        acc.next_id := by
      rw [applyOp_next_id]
      simp [AccountOp.isAdd]
    constructor
    · intro u hu
      have : u.id ∈ acc.transactions.map Transaction.id := by
        rw [← hmap]
        exact List.mem_map_of_mem Transaction.id hu
      rcases List.mem_map.mp this with ⟨w, hw, hid⟩
      obtain ⟨j, hj1, hj2⟩ := h1 w hw
      rw [hnext]
      exact ⟨j, by rw [← hid, hj1], hj2⟩
    · rw [hmap]
      exact h2

/-- The id invariant holds after folding any operation sequence. -/
theorem foldl_invariant (ops : List AccountOp) (acc : Account)
    (h1 : ∀ t ∈ acc.transactions, ∃ j, t.id = some j ∧ j < acc.next_id)
    (h2 : (acc.transactions.map Transaction.id).Nodup) :
    (∀ t ∈ (ops.foldl applyOp acc).transactions,
      ∃ j, t.id = some j ∧ j < (ops.foldl applyOp acc).next_id) ∧
    ((ops.foldl applyOp acc).transactions.map Transaction.id).Nodup := by
  induction ops generalizing acc with
  | nil => exact ⟨h1, h2⟩
  | cons op rest ih =>
    rw [List.foldl_cons]
    obtain ⟨g1, g2⟩ := applyOp_invariant acc op h1 h2
    exact ih (applyOp acc op) g1 g2

/-- Claim C7: add assigns ids 1, 2, 3, ... — after N adds, in any
interleaving with other operations, next_id is N+1 and the next add
receives id N+1; at every reachable state next_id strictly exceeds every
live id and no two live transactions share an id; and once an id is
live, no later add (even after the transaction is deleted) ever assigns
that id again. -/
theorem c7_id_assignment (ops : List AccountOp) :
    (runOps ops).next_id = countAdds ops + 1 ∧
    (∀ t ∈ (runOps ops).transactions,
      ∃ j, t.id = some j ∧ j < (runOps ops).next_id) ∧
    ((runOps ops).transactions.map Transaction.id).Nodup ∧
    (∀ t : Transaction,
      ((runOps (ops ++ [.addT t])).transactions).getLast? =
        some { t with id := some (countAdds ops + 1) }) ∧
    (∀ j, some j ∈ (runOps ops).transactions.map Transaction.id →
      ∀ more, j < (runOps (ops ++ more)).next_id) := by
  have hnext : (runOps ops).next_id = countAdds ops + 1 := by
    unfold runOps
    rw [foldl_next_id]
    simp [Account.init]
    omega
  have hinv := foldl_invariant ops Account.init
    (by intro t ht; simp [Account.init] at ht) (by simp [Account.init])
  refine ⟨hnext, hinv.1, hinv.2, ?_, ?_⟩
  · intro t
    unfold runOps
    rw [List.foldl_append]
    simp only [List.foldl_cons, List.foldl_nil]
    show ((applyOp (runOps ops) (.addT t)).transactions).getLast? = _
    simp only [applyOp, Account.add_transaction]
    rw [List.getLast?_concat, hnext]
  · intro j hj more
    rcases List.mem_map.mp hj with ⟨u, hu, hid⟩
    obtain ⟨j2, hj1, hj2⟩ := hinv.1 u hu
    have hjj : j2 = j := by
      rw [hj1] at hid
      simpa using hid
    subst hjj
    have hmono : (runOps (ops ++ more)).next_id =
        countAdds ops + 1 + countAdds more := by
      unfold runOps
      rw [List.foldl_append, foldl_next_id, foldl_next_id]
      simp only [Account.init]
      omega
    have hnextF : (List.foldl applyOp Account.init ops).next_id =
        countAdds ops + 1 := hnext
    omega

/-- Witness for C7: a single add yields next_id 2, and after deleting
transaction 1 and adding again the counter stays above the old id 1. -/
theorem c7_id_assignment_witness :
    (runOps [AccountOp.addT ⟨⟨2023, 1, 1⟩, 5, "A", "", none⟩]).next_id = 2 ∧
    (1 : Nat) < (runOps ([AccountOp.addT ⟨⟨2023, 1, 1⟩, 5, "A", "", none⟩] ++
      [AccountOp.deleteT 1,
       AccountOp.addT ⟨⟨2023, 1, 2⟩, 6, "B", "", none⟩])).next_id := by
  constructor
  · have h := (c7_id_assignment
      [AccountOp.addT ⟨⟨2023, 1, 1⟩, 5, "A", "", none⟩]).1
    simpa [countAdds, AccountOp.isAdd] using h
  · exact (c7_id_assignment
      [AccountOp.addT ⟨⟨2023, 1, 1⟩, 5, "A", "", none⟩]).2.2.2.2 1
      (by decide)
      [AccountOp.deleteT 1, AccountOp.addT ⟨⟨2023, 1, 2⟩, 6, "B", "", none⟩]

/-- A successful one-or-two-digit slash parse consumed either a digit
and a slash or two digits and a slash. -/
theorem parseD12slash_cases (cs : List Char) (v : Nat) (tok rest : List Char)
    (h : parseD12slash cs = some (v, tok, rest)) :
    cs = tok ++ rest ∧
      ((∃ a, tok = [a, '/'] ∧ a.isDigit) ∨
        (∃ a b, tok = [a, b, '/'] ∧ a.isDigit ∧ b.isDigit)) := by
  rcases cs with _ | ⟨a, _ | ⟨b, rest2⟩⟩
  · simp [parseD12slash] at h
  · simp [parseD12slash] at h
  · by_cases hab : (a.isDigit && b.isDigit) = true
    · rw [Bool.and_eq_true] at hab
      rcases rest2 with _ | ⟨c, rest3⟩
      · simp [parseD12slash, hab.1, hab.2] at h
      · by_cases hc : c = '/'
        · subst hc
          simp [parseD12slash, hab.1, hab.2] at h
          obtain ⟨h1, h2, h3⟩ := h
          subst h2
          subst h3
          exact ⟨rfl, Or.inr ⟨a, b, rfl, hab.1, hab.2⟩⟩
        · simp [parseD12slash, hab.1, hab.2, hc] at h
    · by_cases ha : a.isDigit = true
      · have hb : b.isDigit = false := by
          cases hbv : b.isDigit
          · rfl
          · refine absurd ?_ hab
            rw [ha, hbv]
            rfl
        by_cases hbs : b = '/'
        · subst hbs
          simp [parseD12slash, ha, hb] at h
          obtain ⟨h1, h2, h3⟩ := h
          subst h2
          subst h3
          exact ⟨rfl, Or.inl ⟨a, rfl, ha⟩⟩
        · simp [parseD12slash, ha, hb, hbs] at h
      · have ha2 : a.isDigit = false := by
          cases hav : a.isDigit
          · rfl
          · exact absurd hav ha
        simp [parseD12slash, ha2] at h

/-- A successful four-digit-year parse consumed exactly four digits. -/
theorem parseYear4_cases (cs : List Char) (v : Nat) (tok rest : List Char)
    (h : parseYear4 cs = some (v, tok, rest)) :
    cs = tok ++ rest ∧ ∃ a b c d, tok = [a, b, c, d] ∧
      a.isDigit ∧ b.isDigit ∧ c.isDigit ∧ d.isDigit := by
  rcases cs with _ | ⟨a, _ | ⟨b, _ | ⟨c, _ | ⟨d, rest2⟩⟩⟩⟩
  · simp [parseYear4] at h
  · simp [parseYear4] at h
  · simp [parseYear4] at h
  · simp [parseYear4] at h
  · by_cases hd : (a.isDigit && b.isDigit && c.isDigit && d.isDigit) = true
    · simp only [Bool.and_eq_true] at hd
      simp [parseYear4, hd.1.1.1, hd.1.1.2, hd.1.2, hd.2] at h
      obtain ⟨h1, h2, h3⟩ := h
      subst h2
      subst h3
      exact ⟨rfl, a, b, c, d, rfl, hd.1.1.1, hd.1.1.2, hd.1.2, hd.2⟩
    · simp only [parseYear4, if_neg hd] at h
      cases h

/-- A successful dash-date parse consumed a token of the dash shape. -/
theorem parseDashDate_shape (cs : List Char) (v : Nat × Nat × Nat)
    (tok rest : List Char) (h : parseDashDate cs = some (v, tok, rest)) :
    cs = tok ++ rest ∧ dashShape tok = true := by
  unfold parseDashDate at h
  split at h
  · rename_i a b c d e f g hh rest2
    split at h
    · rename_i hdig
      simp only [Option.some.injEq, Prod.mk.injEq] at h
      obtain ⟨h1, h2, h3⟩ := h
      subst h2
      subst h3
      simp only [Bool.and_eq_true] at hdig
      refine ⟨rfl, ?_⟩
      simp [dashShape, hdig.1.1.1.1.1.1.1, hdig.1.1.1.1.1.1.2,
        hdig.1.1.1.1.1.2, hdig.1.1.1.1.2, hdig.1.1.1.2, hdig.1.1.2,
        hdig.1.2, hdig.2]
    · cases h
  · cases h

/-- A successful slash-date parse consumed a token of the slash shape. -/
theorem parseSlashDate_shape (cs : List Char) (v : Nat × Nat × Nat)
    (tok rest : List Char) (h : parseSlashDate cs = some (v, tok, rest)) :
    cs = tok ++ rest ∧ slashShape tok = true := by
  unfold parseSlashDate at h
  cases h1 : parseD12slash cs with
  | none =>
    rw [h1] at h
    simp at h
  | some r1 =>
    obtain ⟨m, tokm, rest1⟩ := r1
    rw [h1] at h
    simp only at h
    cases h2 : parseD12slash rest1 with
    | none =>
      rw [h2] at h
      simp at h
    | some r2 =>
      obtain ⟨d, tokd, rest2⟩ := r2
      rw [h2] at h
      simp only at h
      cases h3 : parseYear4 rest2 with
      | none =>
        rw [h3] at h
        simp at h
      | some r3 =>
        obtain ⟨y, toky, rest3⟩ := r3
        rw [h3] at h
        simp only [Option.some.injEq, Prod.mk.injEq] at h
        obtain ⟨hv, htok, hrest⟩ := h
        subst htok
        subst hrest
        obtain ⟨hcs1, hm⟩ := parseD12slash_cases _ _ _ _ h1
        obtain ⟨hcs2, hd2⟩ := parseD12slash_cases _ _ _ _ h2
        obtain ⟨hcs3, hy⟩ := parseYear4_cases _ _ _ _ h3
        obtain ⟨a, b, c, d4, hty, ha, hb, hc, hd4⟩ := hy
        constructor
        · rw [hcs1, hcs2, hcs3]
          simp [List.append_assoc]
        · rcases hm with ⟨am, htm, ham⟩ | ⟨am, bm, htm, ham, hbm⟩ <;>
            rcases hd2 with ⟨ad, htd, had⟩ | ⟨ad, bd, htd, had, hbd⟩ <;>
              subst htm <;> subst htd <;> subst hty <;>
                simp_all [slashShape]

/-- A successful date parse consumed a token of one of the two accepted
shapes. -/
theorem parseDate_shape (cs : List Char) (v : Nat × Nat × Nat)
    (tok rest : List Char) (h : parseDate cs = some (v, tok, rest)) :
    cs = tok ++ rest ∧ dateShape tok = true := by
  unfold parseDate at h
  cases hd : parseDashDate cs with
  | some r =>
    rw [hd] at h
    simp only [Option.some.injEq] at h
    subst h
    obtain ⟨h1, h2⟩ := parseDashDate_shape _ _ _ _ hd
    exact ⟨h1, by simp [dateShape, h2]⟩
  | none =>
    rw [hd] at h
    simp only at h
    obtain ⟨h1, h2⟩ := parseSlashDate_shape _ _ _ _ h
    exact ⟨h1, by simp [dateShape, h2]⟩

/-- Claim C6: the line parser accepts exactly the two date shapes
YYYY-MM-DD and M/D/YYYY (whenever a line parses, the consumed date token
has one of the two shapes); the two example lines parse to the stated
tuples, with a missing description defaulted to empty text, and a line
with a non-numeric amount fails with a parse error carrying that line's
text. -/
theorem c6_csv_line_shapes :
    parse_csv_line "2023-10-01,-50.00,Groceries,Weekly shop" =
      .ok (⟨2023, 10, 1⟩, -50, "Groceries", "Weekly shop") ∧
    parse_csv_line "10/01/2023,-50.00,Groceries" =
      .ok (⟨2023, 10, 1⟩, -50, "Groceries", "") ∧
    parse_csv_line "2023-10-01,abc,Groceries" =
      .error "Line does not match expected format: 2023-10-01,abc,Groceries" ∧
    (∀ line out, parse_csv_line line = .ok out →
      ∃ tok rest, skipSpaces line.data = tok ++ rest ∧
        dateShape tok = true) := by
  refine ⟨?_, ?_, ?_, ?_⟩
  · simp +decide [parse_csv_line, parseShape, parseDate, parseDashDate,
      parseSlashDate, parseD12slash, parseYear4, parseComma, parseAmount,
      parseCategoryDesc, skipSpaces, isPySpace, pythonStrip, dval,
      digitsVal, validYMD, daysInMonth, isLeapYear]
  · simp +decide [parse_csv_line, parseShape, parseDate, parseDashDate,
      parseSlashDate, parseD12slash, parseYear4, parseComma, parseAmount,
      parseCategoryDesc, skipSpaces, isPySpace, pythonStrip, dval,
      digitsVal, validYMD, daysInMonth, isLeapYear]
  · simp +decide [parse_csv_line, parseShape, parseDate, parseDashDate,
      parseSlashDate, parseD12slash, parseYear4, parseComma, parseAmount,
      parseCategoryDesc, skipSpaces, isPySpace, pythonStrip, dval,
      digitsVal, validYMD, daysInMonth, isLeapYear]
  · intro line out h
    unfold parse_csv_line at h
    cases hs : parseShape line with
    | none =>
      rw [hs] at h
      simp at h
    | some r =>
      unfold parseShape at hs
      cases hdt : parseDate (skipSpaces line.data) with
      | none =>
        rw [hdt] at hs
        simp at hs
      | some r2 =>
        obtain ⟨v, tok, rest⟩ := r2
        obtain ⟨h1, h2⟩ := parseDate_shape _ _ _ _ hdt
        exact ⟨tok, rest, h1, h2⟩

/-- Witness for C6: the dash-form example line starts with a token of an
accepted date shape. -/
theorem c6_csv_line_shapes_witness :
    ∃ tok rest,
      skipSpaces ("2023-10-01,-50.00,Groceries,Weekly shop").data =
        tok ++ rest ∧ dateShape tok = true :=
  c6_csv_line_shapes.2.2.2 "2023-10-01,-50.00,Groceries,Weekly shop"
    (⟨2023, 10, 1⟩, -50, "Groceries", "Weekly shop") c6_csv_line_shapes.1

end SmartBudget
